import Mathlib

/-!
Verification development for the auditor-backend hybrid RAG pipeline.

Shallow embedding of the access policy gate
(`app/modules/rag/policy_gate.py`), the enhanced RAG pipeline
(`app/modules/rag/enhanced_pipeline.py`) and the hybrid RAG service
(`app/modules/rag/hybrid_service.py`).

Modelling conventions:
- Python floats (similarity scores, temperatures) are modelled as `ℚ`.
- Python `str` is Lean `String`; `None`-able values are `Option`.
- Python substring tests (`w in s`) are modelled by an explicit
  executable infix-check on character lists.
- `str.lower()` is modelled with `Char.toLower`, which lowers ASCII
  letters only; all concrete inputs evaluated in this file are ASCII,
  and the Cyrillic keyword literals in the router are already
  lower-case in the source.
- Database queries become pure lookups over explicit record lists.
- Network-bound collaborators (vector store, LLM, chunk hydration)
  are parameters of the embedded functions, constrained only by their
  interface contracts (e.g. a vector search returns at most `limit`
  hits).
-/

namespace AuditorRag

/-- Python `needle in hay` substring test on character lists. -/
def listHasSub (hay needle : List Char) : Bool :=
  match hay with
  | [] => needle.isEmpty
  | _ :: t => needle.isPrefixOf hay || listHasSub t needle

/-- Python `needle in hay` substring test on strings. -/
def strContains (hay needle : String) : Bool :=
  listHasSub hay.toList needle.toList

/-- Python `any(w in q for w in ws)`. -/
def anyWord (q : String) (ws : List String) : Bool :=
  ws.any (fun w => strContains q w)

/-- Python `s.lower()` (ASCII letters; see module comment). -/
def lowerStr (s : String) : String :=
  (s.toList.map Char.toLower).asString

/-- Embeds `FileScope.ADMIN_LAW.value` from `app/modules/files/models.py`. -/
def ADMIN_LAW : String := "ADMIN_LAW"

/-- Embeds `FileScope.CUSTOMER_DOC.value` from `app/modules/files/models.py`. -/
def CUSTOMER_DOC : String := "CUSTOMER_DOC"

/-! ## Policy gate (`app/modules/rag/policy_gate.py`) -/

/-- Embeds `UserRole` enum. -/
inductive UserRole where
  | admin
  | employee
  | customer
  | guest
deriving DecidableEq, Repr

/-- Embeds `UserRole(value)` conversion from the role string stored in user info. -/
def roleOfString (s : String) : UserRole :=
  if s = "admin" then .admin
  else if s = "employee" then .employee
  else if s = "customer" then .customer
  else .guest

/-- Embeds `role.value`. -/
def roleValue : UserRole → String
  | .admin => "admin"
  | .employee => "employee"
  | .customer => "customer"
  | .guest => "guest"

/-- Row of the `users` table (fields consulted by the gate). -/
structure User where
  id : String
  is_admin : Bool
  is_active : Bool
deriving DecidableEq, Repr

/-- Row of the `customers` table (fields consulted by the gate). -/
structure Customer where
  id : String
  assigned_employee_id : String
deriving DecidableEq, Repr

/-- The relational database state visible to the policy gate. -/
structure DB where
  users : List User
  customers : List Customer
deriving Repr

/-- Embeds `self.db.query(User).get(user_id)`: primary-key lookup. -/
def findUser (db : DB) (user_id : String) : Option User :=
  db.users.find? (fun u => u.id = user_id)

/-- The dict returned by `PolicyGate._get_user_info`. -/
structure UserInfo where
  id : String
  role : String
  is_admin : Bool
  is_active : Bool
deriving DecidableEq, Repr

/-- Embeds `PolicyGate._get_user_info`. -/
def get_user_info (db : DB) (user_id : String) : Option UserInfo :=
  match findUser db user_id with
  | none => none
  | some u =>
      some { id := u.id
             role := if u.is_admin then "admin" else "employee"
             is_admin := u.is_admin
             is_active := u.is_active }

/-- Embeds `PolicyGate._get_assigned_customers`. -/
def get_assigned_customers (db : DB) (user_id : String) : List String :=
  (db.customers.filter (fun c => c.assigned_employee_id = user_id)).map (fun c => c.id)

/-- One entry of `PolicyGate.ROLE_LIMITS`. -/
structure RoleLimits where
  max_k : Nat
  max_context_tokens : Nat
  temperature_range : ℚ × ℚ
  rate_limit_per_hour : Nat
deriving DecidableEq, Repr

/-- Embeds `PolicyGate.ROLE_LIMITS`. -/
def roleLimits : UserRole → RoleLimits
  | .admin => { max_k := 20, max_context_tokens := 16000
                temperature_range := (0, 2), rate_limit_per_hour := 1000 }
  | .employee => { max_k := 15, max_context_tokens := 12000
                   temperature_range := (0, 3/2), rate_limit_per_hour := 500 }
  | .customer => { max_k := 10, max_context_tokens := 8000
                   temperature_range := (0, 1), rate_limit_per_hour := 100 }
  | .guest => { max_k := 5, max_context_tokens := 4000
                temperature_range := (3/10, 7/10), rate_limit_per_hour := 10 }

/-- One entry of `PolicyGate._rate_limit_cache` (for the requesting user). -/
structure RateCacheEntry where
  count : Nat
  window_start : Int
deriving DecidableEq, Repr

/-- Embeds `PolicyGate._check_rate_limit`; `now` is the current time in seconds. -/
def check_rate_limit (cache : Option RateCacheEntry) (now : Int) (role : UserRole) :
    Bool × Nat :=
  let maxReq := (roleLimits role).rate_limit_per_hour
  let c := cache.getD { count := 0, window_start := now }
  let c := if 3600 < now - c.window_start then
             ({ count := 0, window_start := now } : RateCacheEntry)
           else c
  if maxReq ≤ c.count then (false, 0)
  else (true, maxReq - (c.count + 1))

/-- The audit payload attached to a `PolicyDecision`. -/
inductive AuditLog where
  | deniedEntry (reason : String) (timestamp : Int)
  | allowedEntry (timestamp : Int) (user_id tenant_id : String)
      (customer_id : Option String) (action resource_type decision reason : String)
      (requested_scopes allowed_scopes allowed_customers : List String)
deriving DecidableEq, Repr

/-- Embeds `PolicyDecision` dataclass. -/
structure PolicyDecision where
  allowed : Bool
  allowed_scopes : List String
  allowed_customer_ids : List String
  max_k : Nat
  max_context_tokens : Nat
  temperature_range : ℚ × ℚ
  rate_limit_remaining : Nat
  decision_reason : String
  audit_log : AuditLog
deriving DecidableEq, Repr

/-- Embeds `PolicyGate._deny`. -/
def deny (reason : String) (rate_limit_remaining : Nat) (now : Int) : PolicyDecision :=
  { allowed := false
    allowed_scopes := []
    allowed_customer_ids := []
    max_k := 0
    max_context_tokens := 0
    temperature_range := (0, 0)
    rate_limit_remaining := rate_limit_remaining
    decision_reason := reason
    audit_log := .deniedEntry reason now }

/-- Embeds `PolicyGate._get_allowed_scopes`. -/
def get_allowed_scopes (role : UserRole) (is_admin : Bool) (requested : List String) :
    List String :=
  if is_admin || role = UserRole.admin then
    requested.filter (fun s => s = ADMIN_LAW || s = CUSTOMER_DOC)
  else if role = UserRole.employee then
    (if ADMIN_LAW ∈ requested then [ADMIN_LAW] else []) ++
    (if CUSTOMER_DOC ∈ requested then [CUSTOMER_DOC] else [])
  else if role = UserRole.customer then
    (if CUSTOMER_DOC ∈ requested then [CUSTOMER_DOC] else [])
  else []

/-- Python truthiness of an `Optional[str]` (None and "" are falsy). -/
def optTruthy (o : Option String) : Bool :=
  match o with
  | none => false
  | some s => !(s = "")

/-- Embeds `[x] if x else []` for an `Optional[str]`. -/
def optToList (o : Option String) : List String :=
  match o with
  | none => []
  | some s => if s = "" then [] else [s]

/-- Embeds `PolicyGate._get_allowed_customers`. -/
def get_allowed_customers (db : DB) (user_id : String) (role : UserRole)
    (is_admin : Bool) (requested_customer_id : Option String) : List String :=
  if is_admin || role = UserRole.admin then
    optToList requested_customer_id
  else if role = UserRole.employee then
    if optTruthy requested_customer_id then
      match requested_customer_id with
      | some c => if c ∈ get_assigned_customers db user_id then [c] else []
      | none => []
    else get_assigned_customers db user_id
  else if role = UserRole.customer then
    optToList requested_customer_id
  else []

/-- The scope list after the `allowed_scopes.remove(CUSTOMER_DOC)` step
of `PolicyGate.evaluate` (CUSTOMER_DOC is dropped when no customer is
accessible). -/
def effective_scopes (db : DB) (user_id : String) (role : UserRole)
    (is_admin : Bool) (customer_id : Option String)
    (requested_scopes : List String) : List String :=
  if CUSTOMER_DOC ∈ get_allowed_scopes role is_admin requested_scopes ∧
      get_allowed_customers db user_id role is_admin customer_id = [] then
    (get_allowed_scopes role is_admin requested_scopes).erase CUSTOMER_DOC
  else get_allowed_scopes role is_admin requested_scopes

/-- Embeds `PolicyGate.evaluate`.  The rate-limit cache entry for the requesting
user and the current time are explicit inputs. -/
def evaluate (db : DB) (rate : Option RateCacheEntry) (now : Int)
    (user_id tenant_id : String) (customer_id : Option String)
    (requested_scopes : List String) : PolicyDecision :=
  match get_user_info db user_id with
  | none => deny "User not found" 0 now
  | some info =>
    if !(check_rate_limit rate now (roleOfString info.role)).1 then
      deny "Rate limit exceeded" 0 now
    else if get_allowed_scopes (roleOfString info.role) info.is_admin
        requested_scopes = [] then
      deny "No access to requested scopes" 0 now
    else if effective_scopes db user_id (roleOfString info.role) info.is_admin
        customer_id requested_scopes = [] then
      deny "No access to customer documents" 0 now
    else
      { allowed := true
        allowed_scopes := effective_scopes db user_id (roleOfString info.role)
          info.is_admin customer_id requested_scopes
        allowed_customer_ids := get_allowed_customers db user_id
          (roleOfString info.role) info.is_admin customer_id
        max_k := (roleLimits (roleOfString info.role)).max_k
        max_context_tokens := (roleLimits (roleOfString info.role)).max_context_tokens
        temperature_range := (roleLimits (roleOfString info.role)).temperature_range
        rate_limit_remaining := (check_rate_limit rate now (roleOfString info.role)).2
        decision_reason := "Access granted for " ++ roleValue (roleOfString info.role)
        audit_log := .allowedEntry now user_id tenant_id customer_id
          "rag_query" "rag_documents" "allowed"
          ("Access granted for role " ++ roleValue (roleOfString info.role))
          requested_scopes
          (effective_scopes db user_id (roleOfString info.role) info.is_admin
            customer_id requested_scopes)
          (get_allowed_customers db user_id (roleOfString info.role) info.is_admin
            customer_id) }

/-! ## Enhanced pipeline (`app/modules/rag/enhanced_pipeline.py`) -/

/-- Embeds `IntentClass` enum. -/
inductive IntentClass where
  | contract_signatories
  | planning_materiality
  | sampling
  | risk_assessment
  | cycle_deep_dive
  | legal_subsequent_events
  | kam
  | tcwg_communications
  | pbc_waves
  | forensic_red_flags
  | translation_terminology
  | disclosure_drafting
  | model_ops_formatting
  | smalltalk
deriving DecidableEq, Repr

/-- Embeds `QueryPlan` dataclass. -/
structure QueryPlan where
  intent : IntentClass
  required_evidence : String
  admin_law_budget : Nat
  customer_doc_budget : Nat
  chat_memory_budget : Nat
  total_context_limit : Nat
  temperature : ℚ
  exact_patterns : List String
  governing_standards : List String
deriving DecidableEq, Repr

/-- The intent-dependent part of `EnhancedRAGPipeline._route_and_plan`:
(intent, required_evidence, admin budget, customer budget, patterns,
standards) as chosen by the keyword cascade over the lower-cased
question. -/
def routeCore (ql : String) :
    IntentClass × String × Nat × Nat × List String × List String :=
  let base : IntentClass × String × Nat × Nat × List String × List String :=
    (.smalltalk, "helpful", 2, 0, [], [])
  let afterContract :=
    if anyWord ql ["руководител", "генеральн", "директор", "подпис",
                   "в лице", "заказчик", "исполнитель", "договор"] then
      ((.contract_signatories, "must_cite", 2, 8, ["signatories", "names", "roles"], [])
        : IntentClass × String × Nat × Nat × List String × List String)
    else base
  if anyWord ql ["lawsuit", "иск", "legal", "юр", "court", "регулятор"] then
    (.legal_subsequent_events, "must_cite", 8, 3,
     ["legal_references", "dates", "amounts"], ["IAS 37", "IAS 10", "ISA 501"])
  else if anyWord ql ["kam", "ключевой вопрос", "significant", "material"] then
    (.kam, "must_cite", 6, 6,
     ["materiality_indicators", "judgment_areas"], ["ISA 701"])
  else if anyWord ql ["tcwg", "комитет", "board", "governance"] then
    (.tcwg_communications, "helpful", 4, 4, [], ["ISA 260", "ISA 580"])
  else if anyWord ql ["materiality", "существенность", "planning", "plan"] then
    (.planning_materiality, "must_cite", 7, 2,
     ["amounts", "benchmarks", "percentages"], ["ISA 320", "ISA 220"])
  else if anyWord ql ["sample", "выборка", "isa 530"] then
    (.sampling, "must_cite", 6, 3,
     ["population_sizes", "sample_methods"], ["ISA 530"])
  else if anyWord ql ["pbc", "запрос", "документы", "provide"] then
    (.pbc_waves, "helpful", 3, 6, ["document_types", "formats"], [])
  else if anyWord ql ["forensic", "мошенничество", "fraud", "аномалии"] then
    (.forensic_red_flags, "must_cite", 8, 4,
     ["anomaly_patterns", "red_flags"], ["ISA 240"])
  else if anyWord ql ["revenue", "выручка", "ar", "inventory", "запасы",
                      "lease", "аренда"] then
    -- `standards.extend(...)` extends the current value of `standards`,
    -- which is `[]` on every path reaching this branch.
    let cycleStd :=
      if strContains ql "revenue" || strContains ql "выручка" then
        ["IFRS 15", "IAS 20"]
      else if strContains ql "lease" || strContains ql "аренда" then
        ["IFRS 16"]
      else if strContains ql "inventory" || strContains ql "запасы" then
        ["IAS 2"]
      else []
    (.cycle_deep_dive, "must_cite", 5, 7,
     ["cycle_specific_terms", "account_references"], cycleStd)
  else afterContract

/-- Embeds `EnhancedRAGPipeline._route_and_plan`.  The three `re.findall`
extractions of exact patterns (dates, standard references, currency
amounts) are modelled by the parameter `extract`; no claim in this
development constrains their content. -/
def route_and_plan (extract : String → List String) (question : String) : QueryPlan :=
  let ql := lowerStr question
  let c := routeCore ql
  { intent := c.1
    required_evidence := c.2.1
    admin_law_budget := c.2.2.1
    customer_doc_budget := c.2.2.2.1
    chat_memory_budget := 3
    total_context_limit := 8000
    temperature := 3/10
    exact_patterns := c.2.2.2.2.1 ++ extract question
    governing_standards := c.2.2.2.2.2 }

/-- Embeds `PolicyGateResult` dataclass (pipeline-side view of the decision). -/
structure PolicyGateResult where
  allowed_collections : List String
  allowed_scopes : List String
  allowed_customer_ids : List String
  max_k : Nat
  max_context_tokens : Nat
  decision_reason : String
deriving DecidableEq, Repr

/-- Embeds `EnhancedRAGPipeline._policy_gate` (translation of a `PolicyDecision`
into a `PolicyGateResult`). -/
def policy_gate_step (decision : PolicyDecision) : PolicyGateResult :=
  if !decision.allowed then
    { allowed_collections := []
      allowed_scopes := []
      allowed_customer_ids := []
      max_k := 0
      max_context_tokens := 0
      decision_reason := decision.decision_reason }
  else
    { allowed_collections := ["documents", "chat_memory"]
      allowed_scopes := decision.allowed_scopes
      allowed_customer_ids := decision.allowed_customer_ids
      max_k := decision.max_k
      max_context_tokens := decision.max_context_tokens
      decision_reason := decision.decision_reason }

/-- A Qdrant `Filter` as produced by `QdrantVectorStore.build_filter`:
a conjunction over the payload keys scope / customer_id / owner_id. -/
structure QFilter where
  scope : Option String
  customer_id : Option String
  owner_id : Option String
deriving DecidableEq, Repr

/-- Embeds `QdrantVectorStore.build_filter`. -/
def build_filter (scope customer_id owner_id : Option String) : QFilter :=
  { scope := scope, customer_id := customer_id, owner_id := owner_id }

/-- A scored point returned by a Qdrant search, with the payload keys
the pipeline reads. -/
structure QPoint where
  score : ℚ
  file_id : Option String
  chunk_index : Option Int
  pscope : Option String
  customer_id : Option String
  owner_id : Option String
deriving DecidableEq, Repr

/-- The vector index, as the pipeline sees it: the (ranked) matches for
a filter.  `searchStore` applies the `limit` argument of
`QdrantVectorStore.search`: a search returns at most `limit` hits. -/
def VStore : Type := QFilter → List QPoint

/-- Embeds `qdrant_store.search(query_vector=..., limit=..., filter_=...)`. -/
def searchStore (store : VStore) (limit : Nat) (filt : QFilter) : List QPoint :=
  (store filt).take limit

/-- One normalized evidence dict flowing through the enhanced pipeline. -/
structure Evd where
  source : String
  source_type : String
  score : ℚ
  file_id : Option String
  chunk_index : Option Int
  filename : Option String
  escope : Option String
  customer_id : Option String
  owner_id : Option String
  text : String
  citation : String
  trust_level : String
deriving DecidableEq, Repr

/-- Display form of an optional string inside an f-string (Python prints
`None` for a missing value). -/
def optStr : Option String → String
  | none => "None"
  | some s => s

/-- Display form of an optional int inside an f-string. -/
def optIntStr : Option Int → String
  | none => "None"
  | some i => toString i

/-- Embeds `EnhancedRAGPipeline._hydrate_chunk` is a DB lookup; it is a
parameter of the retrieval model (text, filename). -/
def Hydrator : Type := Option String → Option Int → String × Option String

/-- Build one `results["admin_law"]` entry from a Qdrant point. -/
def mkAdminEvd (hydrate : Hydrator) (p : QPoint) : Evd :=
  let h := hydrate p.file_id p.chunk_index
  { source := "qdrant_admin"
    source_type := ""
    score := p.score
    file_id := p.file_id
    chunk_index := p.chunk_index
    filename := h.2
    escope := p.pscope
    customer_id := p.customer_id
    owner_id := p.owner_id
    text := h.1
    citation := "scope=ADMIN_LAW source=" ++ optStr p.file_id ++
      " chunk=" ++ optIntStr p.chunk_index
    trust_level := "official" }

/-- Build one `results["customer_docs"]` entry from a Qdrant point. -/
def mkCustomerEvd (hydrate : Hydrator) (p : QPoint) : Evd :=
  let h := hydrate p.file_id p.chunk_index
  { source := "qdrant_customer"
    source_type := ""
    score := p.score
    file_id := p.file_id
    chunk_index := p.chunk_index
    filename := h.2
    escope := p.pscope
    customer_id := p.customer_id
    owner_id := p.owner_id
    text := h.1
    citation := "scope=CUSTOMER_DOC source=" ++ optStr p.file_id ++
      " chunk=" ++ optIntStr p.chunk_index
    trust_level := "client_provided" }

/-- The `results` dict of `_retrieve_evidence`, plus the list of vector
search filters actually issued (instrumentation used by the claims
about which searches run). -/
structure RetrieveOut where
  admin_law : List Evd
  customer_docs : List Evd
  chat_memory : List Evd
  issued : List QFilter
deriving Repr

/-- Guard of the ADMIN_LAW branch of `_retrieve_evidence`. -/
def adminGuard (plan : QueryPlan) (policy : PolicyGateResult) : Prop :=
  ADMIN_LAW ∈ policy.allowed_scopes ∧ 0 < plan.admin_law_budget

instance (plan : QueryPlan) (policy : PolicyGateResult) :
    Decidable (adminGuard plan policy) := by
  unfold adminGuard; infer_instance

/-- Guard of the CUSTOMER_DOC branch of `_retrieve_evidence` (the scope
must be allowed, budgeted, and `allowed_customer_ids` truthy). -/
def customerGuard (plan : QueryPlan) (policy : PolicyGateResult) : Prop :=
  CUSTOMER_DOC ∈ policy.allowed_scopes ∧ 0 < plan.customer_doc_budget ∧
    policy.allowed_customer_ids ≠ []

instance (plan : QueryPlan) (policy : PolicyGateResult) :
    Decidable (customerGuard plan policy) := by
  unfold customerGuard; infer_instance

/-- The ADMIN_LAW search filter(s) issued by `_retrieve_evidence`. -/
def admin_filters (plan : QueryPlan) (policy : PolicyGateResult) : List QFilter :=
  if adminGuard plan policy then [build_filter (some ADMIN_LAW) none none] else []

/-- Embeds `results["admin_law"]` of `_retrieve_evidence`. -/
def admin_results (store : VStore) (hydrate : Hydrator) (plan : QueryPlan)
    (policy : PolicyGateResult) : List Evd :=
  if adminGuard plan policy then
    (searchStore store plan.admin_law_budget
        (build_filter (some ADMIN_LAW) none none)).map (mkAdminEvd hydrate)
  else []

/-- Embeds `per_customer_limit = max(1, customer_doc_budget // len(allowed))`. -/
def per_customer_limit (plan : QueryPlan) (policy : PolicyGateResult) : Nat :=
  max 1 (plan.customer_doc_budget / policy.allowed_customer_ids.length)

/-- The CUSTOMER_DOC search filters issued by `_retrieve_evidence`
(one per allowed customer id). -/
def customer_filters (plan : QueryPlan) (policy : PolicyGateResult) : List QFilter :=
  if customerGuard plan policy then
    policy.allowed_customer_ids.map
      (fun cid => build_filter (some CUSTOMER_DOC) (some cid) none)
  else []

/-- Embeds `results["customer_docs"]` of `_retrieve_evidence`. -/
def customer_results (store : VStore) (hydrate : Hydrator) (plan : QueryPlan)
    (policy : PolicyGateResult) : List Evd :=
  if customerGuard plan policy then
    policy.allowed_customer_ids.foldr
      (fun cid acc =>
        (searchStore store (per_customer_limit plan policy)
            (build_filter (some CUSTOMER_DOC) (some cid) none)).map
          (mkCustomerEvd hydrate) ++ acc)
      []
  else []

/-- Embeds `results["chat_memory"]` of `_retrieve_evidence`. -/
def chat_results (plan : QueryPlan) (chat_memories : List Evd) : List Evd :=
  if 0 < plan.chat_memory_budget ∧ chat_memories ≠ [] then
    chat_memories.take plan.chat_memory_budget
  else []

/-- Embeds `EnhancedRAGPipeline._retrieve_evidence`.  `chat_memories` stands for
`conversation_state["chat_memories"]`. -/
def retrieve_evidence (store : VStore) (hydrate : Hydrator) (plan : QueryPlan)
    (policy : PolicyGateResult) (chat_memories : List Evd) : RetrieveOut :=
  { admin_law := admin_results store hydrate plan policy
    customer_docs := customer_results store hydrate plan policy
    chat_memory := chat_results plan chat_memories
    issued := admin_filters plan policy ++ customer_filters plan policy }

/-- The dedup key of `_merge_and_dedupe`: `(file_id, chunk_index)`. -/
def dedupKey (e : Evd) : Option String × Option Int :=
  (e.file_id, e.chunk_index)

/-- The first-seen filter of `_merge_and_dedupe` (`seen` is the Python
set of keys already encountered). -/
def dedupeFirst (seen : List (Option String × Option Int)) : List Evd → List Evd
  | [] => []
  | e :: t =>
      if dedupKey e ∈ seen then dedupeFirst seen t
      else e :: dedupeFirst (dedupKey e :: seen) t

/-- Embeds `deduped.sort(key=lambda x: x["score"], reverse=True)`: Python's
stable descending sort, modelled by a stable insertion sort. -/
def sortByScoreDesc (l : List Evd) : List Evd :=
  List.insertionSort (fun a b => b.score ≤ a.score) l

/-- Embeds `evidence["source_type"] = source_type` tagging done while the
sources are concatenated. -/
def tagSource (t : String) (e : Evd) : Evd :=
  { e with source_type := t }

/-- The concatenation step of `_merge_and_dedupe` (dict iteration order:
admin_law, customer_docs, chat_memory). -/
def concatTagged (r : RetrieveOut) : List Evd :=
  r.admin_law.map (tagSource "admin_law") ++
  r.customer_docs.map (tagSource "customer_docs") ++
  r.chat_memory.map (tagSource "chat_memory")

/-- Embeds `EnhancedRAGPipeline._merge_and_dedupe`. -/
def merge_and_dedupe (r : RetrieveOut) : List Evd :=
  sortByScoreDesc (dedupeFirst [] (concatTagged r))

/-- The signatory keyword list of `_filter_noise`. -/
def signatoryKeywords : List String :=
  ["в лице", "генеральн", "директор", "руководител", "подпис"]

/-- The per-document counting loop of `_filter_noise`; `counts` is the
running per-file counter dict. -/
def capByFile (cap : Nat) (counts : Option String → Nat) : List Evd → List Evd
  | [] => []
  | e :: t =>
      let c := counts e.file_id + 1
      let counts2 := fun k => if k = e.file_id then c else counts k
      if c ≤ cap then e :: capByFile cap counts2 t
      else capByFile cap counts2 t

/-- Embeds `EnhancedRAGPipeline._filter_noise`. -/
def filter_noise (evidence : List Evd) (plan : QueryPlan) : List Evd :=
  if evidence = [] then evidence
  else
    let filtered :=
      if plan.intent = IntentClass.contract_signatories then
        let narrowed := evidence.filter
          (fun e => anyWord (lowerStr e.text) signatoryKeywords)
        if narrowed ≠ [] then narrowed else evidence
      else evidence
    let per_file_cap : Nat :=
      if plan.intent = IntentClass.contract_signatories then 2 else 3
    capByFile per_file_cap (fun _ => 0) (sortByScoreDesc filtered)

/-- The generation result handed to `_grounding_check`
(`{"text": ..., "success": ...}`). -/
structure GenResponse where
  text : String
  success : Bool
deriving DecidableEq, Repr

/-- Outcome of the grounding LLM call, as seen after the foreign-call
boundary: the call raised (`exc`), the response had no candidates
(`noCandidates`), the text was not valid JSON (`parseFail`), or a JSON
verdict was parsed (`parsed`). -/
inductive GroundOutcome where
  | exc
  | noCandidates
  | parseFail
  | parsed (grounded : Bool) (score : ℚ) (issues suggestions : List String)
deriving DecidableEq, Repr

/-- The dict returned by `_grounding_check`.  The `success=False`
pass-through returns the generation dict unchanged, which carries none
of the grounding keys; those are `none` in that case. -/
structure GroundingResult where
  text : String
  grounded : Option Bool
  score : Option ℚ
  issues : Option (List String)
  suggestions : Option (List String)
deriving DecidableEq, Repr

/-- Embeds `EnhancedRAGPipeline._grounding_check`. -/
def grounding_check (response : GenResponse) (outcome : GroundOutcome) :
    GroundingResult :=
  if !response.success then
    { text := response.text, grounded := none, score := none,
      issues := none, suggestions := none }
  else
    match outcome with
    | .parsed g sc iss sug =>
        { text := response.text, grounded := some g, score := some sc,
          issues := some iss, suggestions := some sug }
    | .parseFail =>
        { text := response.text, grounded := some true, score := some (8/10),
          issues := some [], suggestions := some [] }
    | .exc =>
        { text := response.text, grounded := some true, score := some (7/10),
          issues := some ["Grounding check failed"], suggestions := some [] }
    | .noCandidates =>
        -- falls through the `if 'candidates' in check_response` to the
        -- final fallback, same as the exception path
        { text := response.text, grounded := some true, score := some (7/10),
          issues := some ["Grounding check failed"], suggestions := some [] }

/-! ## Hybrid service (`app/modules/rag/hybrid_service.py`) -/

/-- One candidate dict as handled by `HybridRAGService._rerank_llm`. -/
structure Cand where
  score : ℚ
  text : String
  citation : String
  file_id : Option String
  chunk_index : Option Int
deriving DecidableEq, Repr

/-- Placeholder only used for in-bounds list indexing. -/
def defaultCand : Cand :=
  { score := 0, text := "", citation := "", file_id := none, chunk_index := none }

/-- The reranking LLM call, as seen after the foreign-call boundary:
it raised (`err`), or `_safe_json_extract` + the per-element `int(x)`
coercions produced the integer list `sel` (unparsable JSON yields
`ok []`, since `{}` has no `selected` key). -/
inductive RerankLLM where
  | err
  | ok (sel : List Int)
deriving DecidableEq, Repr

/-- The selection loop of `_rerank_llm` (`seen` is the set of already
selected 1-based indices, `acc` the `dedup` list). -/
def selLoop (items : List Cand) (fk : Nat) :
    List Int → List Int → List Cand → List Cand
  | [], _, acc => acc
  | xi :: rest, seenIdx, acc =>
      if xi ∈ seenIdx then selLoop items fk rest seenIdx acc
      else
        let acc2 := acc ++ [items.getD (xi - 1).toNat defaultCand]
        if fk ≤ acc2.length then acc2
        else selLoop items fk rest (xi :: seenIdx) acc2

/-- The backfill loop of `_rerank_llm` (`for c in items: ... break`). -/
def backfill (fk : Nat) : List Cand → List Cand → List Cand
  | [], d => d
  | c :: t, d =>
      if fk ≤ d.length then d
      else if c ∈ d then backfill fk t d
      else backfill fk t (d ++ [c])

/-- Embeds `HybridRAGService._rerank_llm`. -/
def rerank_llm (llm : RerankLLM) (candidates : List Cand) (final_k : Int) :
    List Cand :=
  let fk : Nat := (max 1 final_k).toNat
  if candidates = [] then []
  else if candidates.length ≤ fk then candidates
  else
    let items := candidates.take 30
    match llm with
    | .err => items.take fk
    | .ok sel =>
        let idxs := sel.filter
          (fun x => decide (1 ≤ x) && decide (x ≤ (items.length : Int)))
        if idxs = [] then items.take fk
        else
          let dedup := selLoop items fk idxs [] []
          if dedup.length < fk then backfill fk items dedup else dedup

/-- Row of the `file_chunks` table (fields consulted by the evidence
builder). -/
structure FileChunkRow where
  id : String
  file_id : String
  chunk_index : Int
  cscope : Option String
  customer_id : Option String
  owner_id : Option String
  text : String
deriving DecidableEq, Repr

/-- One retrieval seed handed to `_build_evidence_sql`. -/
structure Seed where
  chunk_id : Option String
  file_id : Option String
  chunk_index : Option Int
  sscope : Option String
  score : ℚ
  text : String
deriving DecidableEq, Repr

/-- One final evidence item of `_build_evidence_sql`
(`chunk_index_range = [range_start, range_end]`). -/
structure EvidenceItem where
  source : String
  iscope : Option String
  score : ℚ
  chunk_id : String
  file_id : String
  chunk_index : Int
  range_start : Int
  range_end : Int
  customer_id : Option String
  owner_id : Option String
  text : String
  citations : List (String × String × Int)
  citation : String
deriving DecidableEq, Repr

/-- Embeds `HybridRAGService._format_citation` on an evidence item built by
`_build_evidence_sql` (such an item has no `filename` key). -/
def format_citation_sql (scope : Option String) (file_id : String)
    (chunk_index : Int) : String :=
  let sc := match scope with
    | some s => if s = "" then "UNKNOWN_SCOPE" else s
    | none => "UNKNOWN_SCOPE"
  let src := if file_id = "" then "unknown_source" else file_id
  "scope=" ++ sc ++ " source=" ++ src ++ " chunk=" ++ toString chunk_index

/-- Python `str.strip()` on a character list (whitespace both ends). -/
def stripChars (cs : List Char) : List Char :=
  ((cs.dropWhile Char.isWhitespace).reverse.dropWhile Char.isWhitespace).reverse

/-- The neighbor-window width `k` computed from the seed text:
2 when the stripped text is non-empty and ends without terminal
punctuation or starts lower-case (ASCII `islower`), else 1. -/
def neighborK (txt : String) : Nat :=
  match (stripChars txt.toList).getLast?, (stripChars txt.toList).head? with
  | some last, some first =>
      if !(last ∈ ['.', '?', '!', ':', ')']) || first.isLower then 2 else 1
  | _, _ => 1

/-- Seed-identity resolution at the top of the `_build_evidence_sql`
loop: a truthy `chunk_id` found in the DB overrides `file_id`,
`chunk_index` and (if the row's scope is truthy) `scope`.
`uuid.UUID(...)` parsing is modelled as succeeding: ids are opaque
strings here. -/
def resolveSeed (db : List FileChunkRow) (s : Seed) :
    Option String × Option Int × Option String :=
  if optTruthy s.chunk_id then
    match s.chunk_id with
    | some cid =>
        match db.find? (fun r => r.id = cid) with
        | some row =>
            (some row.file_id, some row.chunk_index,
             match row.cscope with
             | some v => if v = "" then s.sscope else some v
             | none => s.sscope)
        | none => (s.file_id, s.chunk_index, s.sscope)
    | none => (s.file_id, s.chunk_index, s.sscope)
  else (s.file_id, s.chunk_index, s.sscope)

/-- Embeds `order_by(FileChunk.chunk_index.asc())`. -/
def sortByIndexAsc (l : List FileChunkRow) : List FileChunkRow :=
  List.insertionSort (fun a b => a.chunk_index ≤ b.chunk_index) l

/-- The neighbor-row query of `_build_evidence_sql` (file, index range,
optional scope / customer / owner filters). -/
def rowsFor (db : List FileChunkRow) (fid : String) (start endIdx : Int)
    (scope customer_id owner_id : Option String) : List FileChunkRow :=
  sortByIndexAsc (db.filter (fun r =>
    r.file_id == fid &&
    decide (start ≤ r.chunk_index) && decide (r.chunk_index ≤ endIdx) &&
    (match scope with
     | some v => if v = "" then true else r.cscope == some v
     | none => true) &&
    (if scope == some CUSTOMER_DOC then
       match customer_id with
       | some c => if c = "" then true else r.customer_id == some c
       | none => true
     else true) &&
    (if scope == some CUSTOMER_DOC then
       match owner_id with
       | some o => if o = "" then true else r.owner_id == some o
       | none => true
     else true)))

/-- The dedup key of `_build_evidence_sql`:
`f"{file_id}::{chunk_index_range}"`. -/
def evKey (it : EvidenceItem) : String × Int × Int :=
  (it.file_id, it.range_start, it.range_end)

/-- The per-seed body of the `_build_evidence_sql` loop, up to (but not
including) the dedup check: `none` on each `continue` path (unusable
identity, no neighbor rows). -/
def seedItem (db : List FileChunkRow) (customer_id owner_id : Option String)
    (s : Seed) : Option EvidenceItem :=
  match (resolveSeed db s).1, (resolveSeed db s).2.1 with
  | some fid, some ci =>
      if fid = "" then none
      else
        let scope := (resolveSeed db s).2.2
        let k : Int := neighborK s.text
        match rowsFor db fid (max 0 (ci - k)) (ci + k) scope customer_id owner_id with
        | [] => none
        | r0 :: rtail =>
            let rows := r0 :: rtail
            some
              { source := "sql"
                iscope := scope
                score := s.score
                chunk_id := (rows.getD (rows.length / 2) r0).id
                file_id := r0.file_id
                chunk_index := r0.chunk_index
                range_start := r0.chunk_index
                range_end := (rows.getLastD r0).chunk_index
                customer_id := r0.customer_id
                owner_id := r0.owner_id
                text := (String.intercalate "\n\n"
                  (rows.map (fun r => r.text))).trim
                citations := rows.map (fun r => (r.id, r.file_id, r.chunk_index))
                citation := format_citation_sql scope r0.file_id r0.chunk_index }
  | _, _ => none

/-- The loop of `_build_evidence_sql`; `seen` is the set of dedup keys
already emitted. -/
def build_evidence_aux (db : List FileChunkRow) (customer_id owner_id : Option String)
    (seen : List (String × Int × Int)) : List Seed → List EvidenceItem
  | [] => []
  | s :: rest =>
      match seedItem db customer_id owner_id s with
      | none => build_evidence_aux db customer_id owner_id seen rest
      | some item =>
          if evKey item ∈ seen then build_evidence_aux db customer_id owner_id seen rest
          else item :: build_evidence_aux db customer_id owner_id
            (evKey item :: seen) rest

/-- Embeds `HybridRAGService._build_evidence_sql` (with a live DB session;
`customer_id` / `owner_id` come from the policy dict). -/
def build_evidence_sql (db : List FileChunkRow) (seeds : List Seed)
    (customer_id owner_id : Option String) : List EvidenceItem :=
  build_evidence_aux db customer_id owner_id [] seeds

/-! ## Concrete instances used in witnesses and counterexamples -/

/-- The database state with the target user's `is_active` flag set to
`b` and everything else unchanged. -/
def flipActive (db : DB) (uid : String) (b : Bool) : DB :=
  { users := db.users.map (fun u => if u.id = uid then { u with is_active := b } else u)
    customers := db.customers }

/-- Two employees; customer `c9` is assigned to `u2` only. -/
def dbW : DB :=
  { users := [{ id := "u1", is_admin := false, is_active := true },
              { id := "u2", is_admin := false, is_active := true }]
    customers := [{ id := "c9", assigned_employee_id := "u2" }] }

/-- A vector store answering every customer-scoped search with one hit. -/
def storeC4 : VStore := fun f =>
  if f.scope == some CUSTOMER_DOC then
    [{ score := 1, file_id := some "f1", chunk_index := some 0,
       pscope := f.scope, customer_id := f.customer_id, owner_id := none }]
  else []

/-- A hydrator returning no chunk text or filename. -/
def hyd0 : Hydrator := fun _ _ => ("", none)

/-- A policy result allowing CUSTOMER_DOC for three customers. -/
def polC4 : PolicyGateResult :=
  { allowed_collections := ["documents", "chat_memory"]
    allowed_scopes := [CUSTOMER_DOC]
    allowed_customer_ids := ["c1", "c2", "c3"]
    max_k := 15
    max_context_tokens := 12000
    decision_reason := "Access granted for employee" }

/-- A plan with a customer-doc budget of 2. -/
def planC4 : QueryPlan :=
  { intent := .kam, required_evidence := "must_cite"
    admin_law_budget := 0, customer_doc_budget := 2, chat_memory_budget := 3
    total_context_limit := 8000, temperature := 3/10
    exact_patterns := [], governing_standards := [] }

/-- Two candidates at the same `(document_id=doc1, offset=4)` key with
scores 0.77 (seen first) and 0.81. -/
def e77 : Evd :=
  { source := "qdrant_admin", source_type := "", score := 77/100
    file_id := some "doc1", chunk_index := some 4, filename := none
    escope := some "ADMIN_LAW", customer_id := none, owner_id := none
    text := "a", citation := "cit1", trust_level := "official" }

/-- The higher-scored duplicate of `e77`. -/
def e81 : Evd :=
  { e77 with score := 81/100, text := "b", citation := "cit2" }

/-- Retrieval results containing the duplicate pair. -/
def rOutC5 : RetrieveOut :=
  { admin_law := [e77, e81], customer_docs := [], chat_memory := [], issued := [] }

/-- A list of 32 reranking candidates with strictly descending scores. -/
def candsC7 : List Cand :=
  (List.range 32).map (fun i =>
    { score := ((100 : Int) - i : Int), text := "", citation := toString i,
      file_id := none, chunk_index := some i })

/-- Scenario-A question. -/
def scenarioAQuestion : String := "What is the materiality threshold methodology?"

/-- Seven contiguous chunks of one document `f`. -/
def dbC10 : List FileChunkRow :=
  (List.range 7).map (fun i =>
    { id := "id" ++ toString i, file_id := "f", chunk_index := (i : Int)
      cscope := some "ADMIN_LAW", customer_id := none, owner_id := none
      text := "T." })

/-- Seed whose text ends mid-sentence (window 2, range [2,6]). -/
def seedWide : Seed :=
  { chunk_id := none, file_id := some "f", chunk_index := some 4
    sscope := some "ADMIN_LAW", score := 9/10, text := "Ends mid sentence" }

/-- Seed with a complete sentence (window 1, range [3,5] ⊂ [2,6]). -/
def seedNarrow : Seed :=
  { chunk_id := none, file_id := some "f", chunk_index := some 4
    sscope := some "ADMIN_LAW", score := 8/10, text := "Full sentence." }

/-! ## Policy-gate lemmas -/

theorem get_allowed_scopes_subset (role : UserRole) (adm : Bool)
    (requested : List String) :
    get_allowed_scopes role adm requested ⊆ requested := by
  unfold get_allowed_scopes
  split
  · exact fun x hx => (List.mem_filter.1 hx).1
  · split
    · intro x hx
      rcases List.mem_append.1 hx with h | h
      · split at h
        · simp only [List.mem_singleton] at h
          subst h; assumption
        · simp at h
      · split at h
        · simp only [List.mem_singleton] at h
          subst h; assumption
        · simp at h
    · split
      · intro x hx
        split at hx
        · simp only [List.mem_singleton] at hx
          subst hx; assumption
        · simp at hx
      · simp

theorem effective_scopes_subset (db : DB) (uid : String) (role : UserRole)
    (adm : Bool) (cid : Option String) (scopes : List String) :
    effective_scopes db uid role adm cid scopes ⊆
      get_allowed_scopes role adm scopes := by
  unfold effective_scopes
  split
  · exact fun x hx => List.mem_of_mem_erase hx
  · exact fun _ h => h

theorem get_allowed_customers_employee_subset (db : DB) (uid : String)
    (cid : Option String) :
    get_allowed_customers db uid UserRole.employee false cid ⊆
      get_assigned_customers db uid := by
  unfold get_allowed_customers
  rw [if_neg (by decide), if_pos rfl]
  split
  · cases cid with
    | none => simp
    | some c =>
        by_cases hc : c ∈ get_assigned_customers db uid
        · simp [hc]
        · simp [hc]
  · exact fun _ h => h

/-- Case analysis on `evaluate`: either a denial, or the allow record
with its fields expressed through the helper functions. -/
theorem evaluate_cases (db : DB) (rate : Option RateCacheEntry) (now : Int)
    (uid tid : String) (cid : Option String) (scopes : List String) :
    (∃ r, evaluate db rate now uid tid cid scopes = deny r 0 now) ∨
    (∃ info, get_user_info db uid = some info ∧
      (evaluate db rate now uid tid cid scopes).allowed = true ∧
      (evaluate db rate now uid tid cid scopes).allowed_customer_ids =
        get_allowed_customers db uid (roleOfString info.role) info.is_admin cid ∧
      (evaluate db rate now uid tid cid scopes).allowed_scopes =
        effective_scopes db uid (roleOfString info.role) info.is_admin cid scopes) := by
  unfold evaluate
  cases h : get_user_info db uid with
  | none => exact Or.inl ⟨_, rfl⟩
  | some info =>
      dsimp only
      by_cases h1 : (!(check_rate_limit rate now (roleOfString info.role)).1) = true
      · rw [if_pos h1]
        exact Or.inl ⟨_, rfl⟩
      · rw [if_neg h1]
        by_cases h2 : get_allowed_scopes (roleOfString info.role) info.is_admin
            scopes = []
        · rw [if_pos h2]
          exact Or.inl ⟨_, rfl⟩
        · rw [if_neg h2]
          by_cases h3 : effective_scopes db uid (roleOfString info.role)
              info.is_admin cid scopes = []
          · rw [if_pos h3]
            exact Or.inl ⟨_, rfl⟩
          · rw [if_neg h3]
            exact Or.inr ⟨info, rfl, rfl, rfl, rfl⟩

theorem evaluate_scopes_subset (db : DB) (rate : Option RateCacheEntry)
    (now : Int) (uid tid : String) (cid : Option String) (scopes : List String) :
    (evaluate db rate now uid tid cid scopes).allowed_scopes ⊆ scopes := by
  rcases evaluate_cases db rate now uid tid cid scopes with ⟨r, h⟩ | ⟨info, _, _, _, hs⟩
  · rw [h]; simp [deny]
  · rw [hs]
    exact (effective_scopes_subset db uid _ _ cid scopes).trans
      (get_allowed_scopes_subset _ _ scopes)

theorem findUser_flipActive (db : DB) (uid : String) (b : Bool) :
    findUser (flipActive db uid b) uid =
      (findUser db uid).map (fun u => { u with is_active := b }) := by
  unfold findUser flipActive
  induction db.users with
  | nil => rfl
  | cons u t ih =>
      by_cases h : u.id = uid
      · rw [List.map_cons, List.find?_cons_of_pos _ (by simp [h]),
          List.find?_cons_of_pos _ (by simp [h])]
        simp [h]
      · rw [List.map_cons, List.find?_cons_of_neg _ (by simp [h]),
          List.find?_cons_of_neg _ (by simp [h])]
        exact ih

theorem get_user_info_flipActive (db : DB) (uid : String) (b : Bool) :
    get_user_info (flipActive db uid b) uid =
      (get_user_info db uid).map (fun i => { i with is_active := b }) := by
  unfold get_user_info
  rw [findUser_flipActive]
  cases findUser db uid <;> rfl

theorem get_assigned_customers_flipActive (db : DB) (uid x : String) (b : Bool) :
    get_assigned_customers (flipActive db uid b) x = get_assigned_customers db x :=
  rfl

theorem get_allowed_customers_flipActive (db : DB) (uid x : String) (b : Bool)
    (role : UserRole) (adm : Bool) (cid : Option String) :
    get_allowed_customers (flipActive db uid b) x role adm cid =
      get_allowed_customers db x role adm cid := by
  unfold get_allowed_customers
  rw [get_assigned_customers_flipActive]

theorem effective_scopes_flipActive (db : DB) (uid x : String) (b : Bool)
    (role : UserRole) (adm : Bool) (cid : Option String) (scopes : List String) :
    effective_scopes (flipActive db uid b) x role adm cid scopes =
      effective_scopes db x role adm cid scopes := by
  unfold effective_scopes
  rw [get_allowed_customers_flipActive]

/-- C3: `PolicyGate.evaluate` never consults the user's `is_active`
flag: on a database state that differs only in the target user's
`is_active` value, `evaluate` returns the identical `PolicyDecision`,
so a deactivated user is granted exactly the access an active user
with the same role would be granted. -/
theorem C3_is_active_never_consulted (db : DB) (uid : String) (b : Bool)
    (rate : Option RateCacheEntry) (now : Int) (tid : String)
    (cid : Option String) (scopes : List String) :
    evaluate (flipActive db uid b) rate now uid tid cid scopes =
      evaluate db rate now uid tid cid scopes := by
  unfold evaluate
  rw [get_user_info_flipActive]
  cases h : get_user_info db uid with
  | none => rfl
  | some info =>
      dsimp only [Option.map_some']
      rw [get_allowed_customers_flipActive, effective_scopes_flipActive]

theorem get_user_info_of_findUser (db : DB) (uid : String) (u : User)
    (h : findUser db uid = some u) :
    get_user_info db uid =
      some { id := u.id, role := if u.is_admin then "admin" else "employee",
             is_admin := u.is_admin, is_active := u.is_active } := by
  unfold get_user_info
  rw [h]

/-- C2: `allowed=false` implies every numeric ceiling is 0 and both the
allowed-scope and allowed-customer lists are empty; `allowed=true` for
an employee (a non-admin user record) implies every allowed customer id
is in that employee's assignment list. -/
theorem C2_policy_containment :
    (∀ (db : DB) (rate : Option RateCacheEntry) (now : Int) (uid tid : String)
       (cid : Option String) (scopes : List String),
      (evaluate db rate now uid tid cid scopes).allowed = false →
        (evaluate db rate now uid tid cid scopes).max_k = 0 ∧
        (evaluate db rate now uid tid cid scopes).max_context_tokens = 0 ∧
        (evaluate db rate now uid tid cid scopes).allowed_scopes = [] ∧
        (evaluate db rate now uid tid cid scopes).allowed_customer_ids = []) ∧
    (∀ (db : DB) (rate : Option RateCacheEntry) (now : Int) (uid tid : String)
       (cid : Option String) (scopes : List String) (u : User),
      findUser db uid = some u → u.is_admin = false →
      (evaluate db rate now uid tid cid scopes).allowed = true →
        ∀ c ∈ (evaluate db rate now uid tid cid scopes).allowed_customer_ids,
          c ∈ get_assigned_customers db uid) := by
  constructor
  · intro db rate now uid tid cid scopes hf
    rcases evaluate_cases db rate now uid tid cid scopes with ⟨r, he⟩ | ⟨_, _, ha, _, _⟩
    · rw [he]
      exact ⟨rfl, rfl, rfl, rfl⟩
    · rw [ha] at hf
      simp at hf
  · intro db rate now uid tid cid scopes u hu hadm hat c hc
    rcases evaluate_cases db rate now uid tid cid scopes with
      ⟨r, he⟩ | ⟨info, hinfo, _, hids, _⟩
    · rw [he] at hat
      simp [deny] at hat
    · have hg := get_user_info_of_findUser db uid u hu
      rw [hadm] at hg
      rw [hinfo] at hg
      injection hg with hg
      subst hg
      rw [hids] at hc
      have hrole : roleOfString (if false = true then "admin" else "employee") =
          UserRole.employee := by decide
      rw [hrole] at hc
      exact get_allowed_customers_employee_subset db uid cid hc

/-- Witness for C2: user `u1` denied CUSTOMER_DOC has all ceilings zero;
user `u2` allowed both scopes has its allowed customers inside its
assignment list. -/
theorem C2_policy_containment_witness :
    (evaluate dbW none 0 "u1" "t1" (some "C123") [CUSTOMER_DOC]).max_k = 0 ∧
    ∀ c ∈ (evaluate dbW none 0 "u2" "t1" none
            [ADMIN_LAW, CUSTOMER_DOC]).allowed_customer_ids,
      c ∈ get_assigned_customers dbW "u2" :=
  ⟨(C2_policy_containment.1 dbW none 0 "u1" "t1" (some "C123") [CUSTOMER_DOC]
      (by decide)).1,
   C2_policy_containment.2 dbW none 0 "u2" "t1" none [ADMIN_LAW, CUSTOMER_DOC]
      { id := "u2", is_admin := false, is_active := true }
      (by decide) rfl (by decide)⟩

theorem evaluate_ids_empty_of_unassigned (db : DB) (rate : Option RateCacheEntry)
    (now : Int) (uid tid C : String) (scopes : List String) (u : User)
    (hu : findUser db uid = some u) (hadm : u.is_admin = false)
    (hC : C ∉ get_assigned_customers db uid) (hne : C ≠ "") :
    (evaluate db rate now uid tid (some C) scopes).allowed_customer_ids = [] := by
  rcases evaluate_cases db rate now uid tid (some C) scopes with
    ⟨r, he⟩ | ⟨info, hinfo, _, hids, _⟩
  · rw [he]
    rfl
  · have hg := get_user_info_of_findUser db uid u hu
    rw [hadm] at hg
    rw [hinfo] at hg
    injection hg with hg
    subst hg
    rw [hids]
    have hrole : roleOfString (if false = true then "admin" else "employee") =
        UserRole.employee := by decide
    rw [hrole]
    unfold get_allowed_customers
    rw [if_neg (by simp), if_pos rfl,
      if_pos (show optTruthy (some C) = true by simp [optTruthy, hne])]
    exact if_neg hC

theorem policy_gate_step_ids_empty (d : PolicyDecision)
    (h : d.allowed_customer_ids = []) :
    (policy_gate_step d).allowed_customer_ids = [] := by
  unfold policy_gate_step
  split
  · rfl
  · exact h

/-- Every vector-search filter issued by `_retrieve_evidence` either
carries no customer id (the ADMIN_LAW search) or a customer id drawn
from the policy's allowed list. -/
theorem issued_filters_spec (store : VStore) (hydrate : Hydrator)
    (plan : QueryPlan) (policy : PolicyGateResult) (chat : List Evd) :
    ∀ f ∈ (retrieve_evidence store hydrate plan policy chat).issued,
      f.customer_id = none ∨
        ∃ c ∈ policy.allowed_customer_ids, f.customer_id = some c := by
  intro f hf
  have hf2 : f ∈ admin_filters plan policy ++ customer_filters plan policy := hf
  rcases List.mem_append.1 hf2 with hA | hC
  · left
    unfold admin_filters at hA
    split at hA
    · rcases List.mem_singleton.1 hA with rfl
      rfl
    · cases hA
  · right
    unfold customer_filters at hC
    split at hC
    · rcases List.mem_map.1 hC with ⟨c, hcmem, rfl⟩
      exact ⟨c, hcmem, rfl⟩
    · cases hC

/-- C1: an employee with no assignment to customer `C` asking for
`customer_id=C` gets a decision that is either a denial or excludes `C`
from the allowed customer ids, and the retrieval stage issues no vector
search whose filter is set to `customer_id=C`. -/
theorem C1_unassigned_customer_isolated (db : DB) (rate : Option RateCacheEntry)
    (now : Int) (uid tid C : String) (scopes : List String) (u : User)
    (store : VStore) (hydrate : Hydrator) (plan : QueryPlan) (chat : List Evd)
    (hu : findUser db uid = some u) (hadm : u.is_admin = false)
    (hC : C ∉ get_assigned_customers db uid) (hne : C ≠ "") :
    ((evaluate db rate now uid tid (some C) scopes).allowed = false ∨
      C ∉ (evaluate db rate now uid tid (some C) scopes).allowed_customer_ids) ∧
    ∀ f ∈ (retrieve_evidence store hydrate plan
            (policy_gate_step (evaluate db rate now uid tid (some C) scopes))
            chat).issued,
      f.customer_id ≠ some C := by
  have hids := evaluate_ids_empty_of_unassigned db rate now uid tid C scopes u
    hu hadm hC hne
  constructor
  · right
    rw [hids]
    exact List.not_mem_nil C
  · intro f hf
    rcases issued_filters_spec store hydrate plan
      (policy_gate_step (evaluate db rate now uid tid (some C) scopes)) chat f hf with
      hnone | ⟨c, hcmem, hcid⟩
    · rw [hnone]
      exact fun h => Option.noConfusion h
    · rw [policy_gate_step_ids_empty _ hids] at hcmem
      cases hcmem

/-- Witness for C1: employee `u1` (no assignments) requesting customer
`C123`. -/
theorem C1_unassigned_customer_isolated_witness :
    ((evaluate dbW none 0 "u1" "t1" (some "C123") [ADMIN_LAW]).allowed = false ∨
      "C123" ∉ (evaluate dbW none 0 "u1" "t1" (some "C123")
        [ADMIN_LAW]).allowed_customer_ids) ∧
    ∀ f ∈ (retrieve_evidence storeC4 hyd0 planC4
            (policy_gate_step (evaluate dbW none 0 "u1" "t1" (some "C123")
              [ADMIN_LAW])) []).issued,
      f.customer_id ≠ some "C123" :=
  C1_unassigned_customer_isolated dbW none 0 "u1" "t1" "C123" [ADMIN_LAW]
    { id := "u1", is_admin := false, is_active := true }
    storeC4 hyd0 planC4 [] (by decide) rfl (by decide) (by decide)

theorem foldr_append_length_le {α β : Type} (f : α → List β) (L : Nat)
    (h : ∀ a, (f a).length ≤ L) (l : List α) :
    (l.foldr (fun a acc => f a ++ acc) []).length ≤ l.length * L := by
  induction l with
  | nil => simp
  | cons a t ih =>
      simp only [List.foldr_cons, List.length_append, List.length_cons]
      calc (f a).length + (t.foldr (fun a acc => f a ++ acc) []).length
          ≤ L + t.length * L := Nat.add_le_add (h a) ih
        _ = (t.length + 1) * L := by ring

/-- C4 counterexample: with a customer-doc budget of 2 and three allowed
customers, `per_customer_limit = max(1, 2 // 3) = 1` and the CUSTOMER_DOC
scope retrieves 3 candidates — more than its budget of 2. -/
theorem C4_counterexample :
    planC4.customer_doc_budget = 2 ∧
    (retrieve_evidence storeC4 hyd0 planC4 polC4 []).customer_docs.length = 3 := by
  decide

/-- C4 amended: a zero budget yields zero searches and zero candidates
for that scope; the ADMIN_LAW scope never exceeds its budget and
chat memory never exceeds its budget; the CUSTOMER_DOC scope is bounded
by `len(allowed_customer_ids) * max(1, budget // len(allowed_customer_ids))`
(which exceeds the budget when the budget is smaller than the number of
allowed customers). -/
theorem C4_budget_invariant_amended (store : VStore) (hydrate : Hydrator)
    (plan : QueryPlan) (policy : PolicyGateResult) (chat : List Evd) :
    (plan.admin_law_budget = 0 →
      (retrieve_evidence store hydrate plan policy chat).admin_law = [] ∧
      admin_filters plan policy = []) ∧
    (plan.customer_doc_budget = 0 →
      (retrieve_evidence store hydrate plan policy chat).customer_docs = [] ∧
      customer_filters plan policy = []) ∧
    (retrieve_evidence store hydrate plan policy chat).admin_law.length ≤
      plan.admin_law_budget ∧
    (retrieve_evidence store hydrate plan policy chat).customer_docs.length ≤
      policy.allowed_customer_ids.length * per_customer_limit plan policy ∧
    (retrieve_evidence store hydrate plan policy chat).chat_memory.length ≤
      plan.chat_memory_budget := by
  refine ⟨?_, ?_, ?_, ?_, ?_⟩
  · intro hb
    have hng : ¬ adminGuard plan policy := by
      intro hg
      unfold adminGuard at hg
      rw [hb] at hg
      exact absurd hg.2 (by omega)
    constructor
    · show admin_results store hydrate plan policy = []
      unfold admin_results
      rw [if_neg hng]
    · unfold admin_filters
      rw [if_neg hng]
  · intro hb
    have hng : ¬ customerGuard plan policy := by
      intro hg
      unfold customerGuard at hg
      rw [hb] at hg
      exact absurd hg.2.1 (by omega)
    constructor
    · show customer_results store hydrate plan policy = []
      unfold customer_results
      rw [if_neg hng]
    · unfold customer_filters
      rw [if_neg hng]
  · show (admin_results store hydrate plan policy).length ≤ _
    unfold admin_results
    split
    · simp only [List.length_map, searchStore, List.length_take]
      exact min_le_left _ _
    · simp
  · show (customer_results store hydrate plan policy).length ≤ _
    unfold customer_results
    split
    · refine foldr_append_length_le _ _ (fun cid => ?_) _
      simp only [List.length_map, searchStore, List.length_take]
      exact min_le_left _ _
    · simp
  · show (chat_results plan chat).length ≤ _
    unfold chat_results
    split
    · simp only [List.length_take]
      exact min_le_left _ _
    · simp

/-- Witness for C4 amended: the zero admin budget of `planC4` yields no
admin candidates, and the customer pool respects the per-customer bound. -/
theorem C4_budget_invariant_amended_witness :
    (retrieve_evidence storeC4 hyd0 planC4 polC4 []).admin_law = [] ∧
    (retrieve_evidence storeC4 hyd0 planC4 polC4 []).customer_docs.length ≤
      polC4.allowed_customer_ids.length * per_customer_limit planC4 polC4 :=
  ⟨((C4_budget_invariant_amended storeC4 hyd0 planC4 polC4 []).1 rfl).1,
   (C4_budget_invariant_amended storeC4 hyd0 planC4 polC4 []).2.2.2.1⟩

theorem policy_gate_step_scopes_subset (d : PolicyDecision) :
    (policy_gate_step d).allowed_scopes ⊆ d.allowed_scopes := by
  unfold policy_gate_step
  split
  · intro x hx
    cases hx
  · exact fun _ h => h

/-- If CUSTOMER_DOC is not among the allowed scopes, retrieval produces
no customer candidates and issues no CUSTOMER_DOC-scoped search. -/
theorem retrieval_no_customer_scope (store : VStore) (hydrate : Hydrator)
    (plan : QueryPlan) (policy : PolicyGateResult) (chat : List Evd)
    (h : CUSTOMER_DOC ∉ policy.allowed_scopes) :
    (retrieve_evidence store hydrate plan policy chat).customer_docs = [] ∧
    (retrieve_evidence store hydrate plan policy chat).issued.filter
      (fun f => f.scope == some CUSTOMER_DOC) = [] := by
  have hng : ¬ customerGuard plan policy := fun hg => h hg.1
  have h1 : customer_filters plan policy = [] := by
    unfold customer_filters
    rw [if_neg hng]
  have h2 : customer_results store hydrate plan policy = [] := by
    unfold customer_results
    rw [if_neg hng]
  refine ⟨h2, ?_⟩
  show (admin_filters plan policy ++ customer_filters plan policy).filter _ = []
  rw [h1, List.append_nil]
  unfold admin_filters
  split
  · decide
  · rfl

/-- C6 counterexample: the scenario-A question routes to the KAM intent
(the KAM keyword `"material"` is a substring of `"materiality"` and the
KAM branch is checked before the planning/materiality branch), not to
planning/materiality. -/
theorem C6_counterexample :
    (route_and_plan (fun _ => []) scenarioAQuestion).intent = IntentClass.kam ∧
    IntentClass.kam ≠ IntentClass.planning_materiality := by
  constructor
  · show (routeCore (lowerStr scenarioAQuestion)).1 = IntentClass.kam
    decide
  · decide

/-- C6 amended: the scenario-A question routes to the KAM intent with
admin-law budget (6) ≥ customer-doc budget (6), and with
`include_customer_docs=false` (requested scopes `[ADMIN_LAW]`) the
retrieval stage issues zero customer-scoped vector searches and returns
zero customer candidates. -/
theorem C6_scenarioA_amended (extract : String → List String) (db : DB)
    (rate : Option RateCacheEntry) (now : Int) (uid tid : String)
    (store : VStore) (hydrate : Hydrator) (chat : List Evd) :
    (route_and_plan extract scenarioAQuestion).intent = IntentClass.kam ∧
    (route_and_plan extract scenarioAQuestion).customer_doc_budget ≤
      (route_and_plan extract scenarioAQuestion).admin_law_budget ∧
    (retrieve_evidence store hydrate (route_and_plan extract scenarioAQuestion)
        (policy_gate_step (evaluate db rate now uid tid none [ADMIN_LAW]))
        chat).issued.filter (fun f => f.scope == some CUSTOMER_DOC) = [] ∧
    (retrieve_evidence store hydrate (route_and_plan extract scenarioAQuestion)
        (policy_gate_step (evaluate db rate now uid tid none [ADMIN_LAW]))
        chat).customer_docs = [] := by
  have hnc : CUSTOMER_DOC ∉
      (policy_gate_step (evaluate db rate now uid tid none [ADMIN_LAW])).allowed_scopes := by
    intro hmem
    have h2 := evaluate_scopes_subset db rate now uid tid none [ADMIN_LAW]
      (policy_gate_step_scopes_subset _ hmem)
    rw [List.mem_singleton] at h2
    exact absurd h2 (by decide)
  have hr := retrieval_no_customer_scope store hydrate
    (route_and_plan extract scenarioAQuestion)
    (policy_gate_step (evaluate db rate now uid tid none [ADMIN_LAW])) chat hnc
  refine ⟨?_, ?_, hr.2, hr.1⟩
  · show (routeCore (lowerStr scenarioAQuestion)).1 = IntentClass.kam
    decide
  · show (routeCore (lowerStr scenarioAQuestion)).2.2.2.1 ≤
      (routeCore (lowerStr scenarioAQuestion)).2.2.1
    decide

theorem dedupeFirst_spec :
    ∀ (l : List Evd) (seen : List (Option String × Option Int)) (e : Evd),
      e ∈ dedupeFirst seen l →
        dedupKey e ∉ seen ∧
        l.find? (fun x => decide (dedupKey x = dedupKey e)) = some e := by
  intro l
  induction l with
  | nil =>
      intro seen e he
      cases he
  | cons a t ih =>
      intro seen e he
      unfold dedupeFirst at he
      by_cases ha : dedupKey a ∈ seen
      · rw [if_pos ha] at he
        obtain ⟨hnot, hfind⟩ := ih seen e he
        refine ⟨hnot, ?_⟩
        rw [List.find?_cons_of_neg _ ?_, hfind]
        intro hpred
        rw [decide_eq_true_eq] at hpred
        exact hnot (hpred ▸ ha)
      · rw [if_neg ha] at he
        rcases List.mem_cons.1 he with rfl | he2
        · refine ⟨ha, ?_⟩
          rw [List.find?_cons_of_pos _ (by simp)]
        · obtain ⟨hnot, hfind⟩ := ih _ e he2
          have hne : dedupKey a ≠ dedupKey e := by
            intro hk
            exact hnot (hk ▸ List.mem_cons_self _ _)
          have hnseen : dedupKey e ∉ seen :=
            fun h => hnot (List.mem_cons_of_mem _ h)
          refine ⟨hnseen, ?_⟩
          rw [List.find?_cons_of_neg _ ?_, hfind]
          intro hpred
          rw [decide_eq_true_eq] at hpred
          exact hne hpred

theorem dedupeFirst_pairwise_keys :
    ∀ (l : List Evd) (seen : List (Option String × Option Int)),
      List.Pairwise (fun a b => dedupKey a ≠ dedupKey b) (dedupeFirst seen l) := by
  intro l
  induction l with
  | nil =>
      intro seen
      exact List.Pairwise.nil
  | cons a t ih =>
      intro seen
      unfold dedupeFirst
      by_cases ha : dedupKey a ∈ seen
      · rw [if_pos ha]
        exact ih seen
      · rw [if_neg ha]
        refine List.Pairwise.cons ?_ (ih _)
        intro b hb hk
        have := (dedupeFirst_spec t (dedupKey a :: seen) b hb).1
        exact this (hk ▸ List.mem_cons_self _ _)

/-- C5 counterexample: two candidates at the identical key
`(doc1, offset 4)` with scores 0.77 (first seen) and 0.81 fuse into one
candidate whose score is 0.77, not the maximum 0.81. -/
theorem C5_counterexample :
    (merge_and_dedupe rOutC5).length = 1 ∧
    (merge_and_dedupe rOutC5).map (fun e => e.score) = [77/100] ∧
    (77 : ℚ)/100 ≠ 81/100 := by
  refine ⟨rfl, rfl, by norm_num⟩

/-- C5 amended: `_merge_and_dedupe` keeps, for every `(file_id,
chunk_index)` key, exactly the FIRST-seen candidate of the concatenated
source order (admin_law, customer_docs, chat_memory) — not the
maximum-score one — and the output holds at most one candidate per key. -/
theorem C5_dedupe_first_seen_amended (r : RetrieveOut) :
    (∀ e ∈ merge_and_dedupe r,
      (concatTagged r).find? (fun x => decide (dedupKey x = dedupKey e)) = some e) ∧
    List.Pairwise (fun a b => dedupKey a ≠ dedupKey b) (merge_and_dedupe r) := by
  constructor
  · intro e he
    have he2 : e ∈ dedupeFirst [] (concatTagged r) :=
      (List.perm_insertionSort _ _).mem_iff.1 he
    exact (dedupeFirst_spec _ [] e he2).2
  · exact ((List.perm_insertionSort _ _).pairwise_iff
      (fun h hk => h hk.symm)).2
      (dedupeFirst_pairwise_keys (concatTagged r) [])

/-- Witness for C5 amended: in the concrete duplicate scenario the
survivor is the first-seen candidate `e77`. -/
theorem C5_dedupe_first_seen_amended_witness :
    (concatTagged rOutC5).find?
      (fun x => decide (dedupKey x =
        dedupKey { e77 with source_type := "admin_law" })) =
      some { e77 with source_type := "admin_law" } :=
  (C5_dedupe_first_seen_amended rOutC5).1 _ (by
    rw [show merge_and_dedupe rOutC5 =
      [{ e77 with source_type := "admin_law" }] from rfl]
    exact List.mem_singleton_self _)

theorem capByFile_countP_le (cap : Nat) (fid : Option String) :
    ∀ (l : List Evd) (counts : Option String → Nat),
      (capByFile cap counts l).countP (fun e => decide (e.file_id = fid)) ≤
        cap - counts fid := by
  intro l
  induction l with
  | nil =>
      intro counts
      simp [capByFile]
  | cons e t ih =>
      intro counts
      unfold capByFile
      by_cases hf : e.file_id = fid
      · subst hf
        by_cases hc : counts e.file_id + 1 ≤ cap
        · rw [if_pos hc, List.countP_cons]
          have h2 := ih (fun k => if k = e.file_id then counts e.file_id + 1 else counts k)
          rw [if_pos rfl] at h2
          simp only [decide_True, if_pos trivial]
          omega
        · rw [if_neg hc]
          have h2 := ih (fun k => if k = e.file_id then counts e.file_id + 1 else counts k)
          rw [if_pos rfl] at h2
          omega
      · have hne : fid ≠ e.file_id := fun h => hf h.symm
        have h2 := ih (fun k => if k = e.file_id then counts e.file_id + 1 else counts k)
        rw [if_neg hne] at h2
        by_cases hc : counts e.file_id + 1 ≤ cap
        · rw [if_pos hc, List.countP_cons]
          simp only [decide_eq_true_eq, if_neg hf]
          omega
        · rw [if_neg hc]
          exact h2

/-- C8: after `_filter_noise`, no single source document contributes
more than the intent-specific cap to the pool: at most 2 candidates per
`file_id` for contract-signatories, at most 3 for every other intent. -/
theorem C8_per_document_cap (evidence : List Evd) (plan : QueryPlan)
    (fid : Option String) :
    (filter_noise evidence plan).countP (fun e => decide (e.file_id = fid)) ≤
      (if plan.intent = IntentClass.contract_signatories then 2 else 3) := by
  unfold filter_noise
  split
  next h =>
    rw [h]
    simp
  next =>
    exact le_trans (capByFile_countP_le _ fid _ (fun _ => 0)) (by simp)

/-- C7 counterexample: with 32 candidates and `final_k = 31`, the
exception fallback returns `candidates[:30][:final_k]`, i.e. 30 items —
not exactly `final_k` although more than `final_k` candidates exist. -/
theorem C7_counterexample :
    candsC7.length = 32 ∧
    (rerank_llm RerankLLM.err candsC7 31).length = 30 ∧
    (30 : Nat) ≠ 31 := by
  exact ⟨rfl, rfl, by omega⟩

/-- C7 amended: when the reranking call raises or yields no valid
selected index, `_rerank_llm` returns the candidates unchanged if there
are at most `max(1, final_k)` of them, and otherwise returns the first
`min(max(1, final_k), 30)` candidates in their given order (hence
ordered by descending original score whenever the input is so ordered,
as at both call sites); no exception escapes. -/
theorem C7_rerank_fallback_amended (llm : RerankLLM) (candidates : List Cand)
    (final_k : Int)
    (hfb : llm = RerankLLM.err ∨
      ∃ sel, llm = RerankLLM.ok sel ∧
        sel.filter (fun x => decide (1 ≤ x) &&
          decide (x ≤ ((candidates.take 30).length : Int))) = []) :
    (candidates.length ≤ (max 1 final_k).toNat →
      rerank_llm llm candidates final_k = candidates) ∧
    ((max 1 final_k).toNat < candidates.length →
      rerank_llm llm candidates final_k =
        (candidates.take 30).take (max 1 final_k).toNat ∧
      (rerank_llm llm candidates final_k).length =
        min (max 1 final_k).toNat (min 30 candidates.length) ∧
      (List.Pairwise (fun a b : Cand => b.score ≤ a.score) candidates →
        List.Pairwise (fun a b : Cand => b.score ≤ a.score)
          (rerank_llm llm candidates final_k))) := by
  by_cases hnil : candidates = []
  · subst hnil
    constructor
    · intro _
      show rerank_llm llm [] final_k = []
      unfold rerank_llm
      rfl
    · intro hlt
      rw [List.length_nil] at hlt
      exact absurd hlt (Nat.not_lt_zero _)
  · by_cases hle : candidates.length ≤ (max 1 final_k).toNat
    · constructor
      · intro _
        show rerank_llm llm candidates final_k = candidates
        unfold rerank_llm
        dsimp only
        rw [if_neg hnil, if_pos hle]
      · intro hlt
        exact absurd hle (by omega)
    · have hout : rerank_llm llm candidates final_k =
          (candidates.take 30).take (max 1 final_k).toNat := by
        unfold rerank_llm
        dsimp only
        rw [if_neg hnil, if_neg hle]
        rcases hfb with rfl | ⟨sel, rfl, hfilt⟩
        · rfl
        · dsimp only
          rw [hfilt, if_pos rfl]
      constructor
      · intro hle2
        exact absurd hle2 hle
      · intro _
        refine ⟨hout, ?_, ?_⟩
        · rw [hout]
          simp [List.length_take, Nat.min_assoc]
        · intro hsort
          rw [hout]
          exact hsort.sublist
            ((List.take_sublist _ _).trans (List.take_sublist _ _))

/-- Witness for C7 amended: the exception fallback on the 32-candidate
pool with `final_k = 31` is exactly the first 30 candidates. -/
theorem C7_rerank_fallback_amended_witness :
    rerank_llm RerankLLM.err candsC7 31 =
      (candsC7.take 30).take (max 1 (31 : Int)).toNat :=
  ((C7_rerank_fallback_amended RerankLLM.err candsC7 31 (Or.inl rfl)).2
    (by decide)).1

/-- C9 counterexample: on a JSON parse failure the grounding check
returns `issues = []` — the empty list carries no entry noting that the
check failed, so this path is indistinguishable from a clean pass. -/
theorem C9_counterexample :
    (grounding_check { text := "ans", success := true }
      GroundOutcome.parseFail).issues = some [] ∧
    (grounding_check { text := "ans", success := true }
      GroundOutcome.parseFail).grounded = some true ∧
    (grounding_check { text := "ans", success := true }
      GroundOutcome.parseFail).score = some (8/10) :=
  ⟨rfl, rfl, rfl⟩

/-- C9 amended: on a provider failure (exception, or a response without
candidates) the grounding check returns grounded=true, score=0.7 and an
issues list containing "Grounding check failed"; on a JSON parse
failure it returns grounded=true, score=0.8 and an EMPTY issues list,
so only provider failures are distinguishable in the issues list. -/
theorem C9_grounding_fallbacks_amended (text : String) :
    grounding_check { text := text, success := true } GroundOutcome.exc =
      { text := text, grounded := some true, score := some (7/10),
        issues := some ["Grounding check failed"], suggestions := some [] } ∧
    grounding_check { text := text, success := true } GroundOutcome.noCandidates =
      { text := text, grounded := some true, score := some (7/10),
        issues := some ["Grounding check failed"], suggestions := some [] } ∧
    grounding_check { text := text, success := true } GroundOutcome.parseFail =
      { text := text, grounded := some true, score := some (8/10),
        issues := some [], suggestions := some [] } :=
  ⟨rfl, rfl, rfl⟩

theorem build_evidence_aux_spec (db : List FileChunkRow)
    (cid oid : Option String) :
    ∀ (seeds : List Seed) (seen : List (String × Int × Int)),
      (∀ it ∈ build_evidence_aux db cid oid seen seeds, evKey it ∉ seen) ∧
      List.Pairwise (fun a b => evKey a ≠ evKey b)
        (build_evidence_aux db cid oid seen seeds) := by
  intro seeds
  induction seeds with
  | nil =>
      intro seen
      constructor
      · intro it h
        cases h
      · exact List.Pairwise.nil
  | cons s rest ih =>
      intro seen
      unfold build_evidence_aux
      cases hsi : seedItem db cid oid s with
      | none => exact ih seen
      | some item =>
          dsimp only
          by_cases hk : evKey item ∈ seen
          · rw [if_pos hk]
            exact ih seen
          · rw [if_neg hk]
            obtain ⟨ihmem, ihpw⟩ := ih (evKey item :: seen)
            constructor
            · intro it hit
              rcases List.mem_cons.1 hit with rfl | hit2
              · exact hk
              · exact fun h => ihmem it hit2 (List.mem_cons_of_mem _ h)
            · refine List.Pairwise.cons ?_ ihpw
              intro b hb heq
              exact ihmem b hb (heq ▸ List.mem_cons_self _ _)

/-- C10 counterexample: a seed whose neighbor window is 2 produces the
range [2,6]; a second seed over the same document with window 1
produces the strict subset range [3,5]; both survive dedup because the
keys `(f, [2,6])` and `(f, [3,5])` differ — the subset item is NOT
dropped. -/
theorem C10_counterexample :
    (build_evidence_sql dbC10 [seedWide, seedNarrow] none none).map
        (fun i => (i.file_id, i.range_start, i.range_end)) =
      [("f", 2, 6), ("f", 3, 5)] ∧
    ((2 : Int) ≤ 3 ∧ (5 : Int) ≤ 6) :=
  ⟨by decide, by norm_num⟩

/-- C10 amended: the evidence builder deduplicates by EXACT equality of
`(file id, chunk_index_range)` — the output never holds two items with
the same key, but an item whose range is a strict subset of an already
included item's range is retained, not dropped. -/
theorem C10_dedupe_exact_range_amended (db : List FileChunkRow) (seeds : List Seed)
    (customer_id owner_id : Option String) :
    List.Pairwise (fun a b => evKey a ≠ evKey b)
      (build_evidence_sql db seeds customer_id owner_id) :=
  (build_evidence_aux_spec db customer_id owner_id seeds []).2

end AuditorRag
